import Mathlib

/-!
The dlwebdrv driver acquisition pipeline

A shallow embedding of the Go program `dlwebdrv` (files `main.go`, `chrome.go`,
`firefox.go`, `edge.go`) and theorems about it.

Modelling conventions

* A Go `string` is a Lean `String`.  The program only inspects strings through
  ASCII delimiters and whole-string comparisons, so working on Unicode scalar
  values instead of UTF-8 bytes does not change any result.
* A Go `error` is its message (`String`); a function returning `error` returns
  `Except String _`, and a function with side effects threads a `World`.
* The outside world (web servers, the parsed HTML, archive decoding, the
  operating system) is an `Env`; a `Document` is the view of a parsed HTML page
  through the CSS selectors the program evaluates on it.
* `context.Context` is never cancelled and logging (`slog`) is not modelled.
-/

set_option maxRecDepth 100000

namespace Dlwebdrv

/-! ## Go standard library functions used by the program -/

/-- Go `strings.HasPrefix`: `len(s) >= len(prefix) && s[:len(prefix)] == prefix`. -/
def hasPrefix (s pre : String) : Bool :=
  decide (pre.length ≤ s.length ∧ s.data.take pre.length = pre.data)

/-- Go `strings.HasSuffix`: `len(s) >= len(suffix) && s[len(s)-len(suffix):] == suffix`. -/
def hasSuffix (s suf : String) : Bool :=
  decide (suf.length ≤ s.length ∧ s.data.drop (s.length - suf.length) = suf.data)

/-- Go `unicode.IsSpace`: the Unicode White_Space property. -/
def isSpace (c : Char) : Bool :=
  let n := c.toNat
  (9 ≤ n && n ≤ 13) || n = 32 || n = 0x85 || n = 0xA0 || n = 0x1680 ||
  (0x2000 ≤ n && n ≤ 0x200A) || n = 0x2028 || n = 0x2029 || n = 0x202F ||
  n = 0x205F || n = 0x3000

/-- Go `strings.TrimSpace`: drop leading and trailing white space. -/
def trimSpace (s : String) : String :=
  ⟨((s.data.dropWhile isSpace).reverse.dropWhile isSpace).reverse⟩

/-- The loop of Go `path.Ext`, run over the reversed path: walk back from the
last character, stop with `""` at a slash, and at a dot return the dot and all
that follows it (`acc`). -/
def extAux : List Char → List Char → List Char
  | [], _ => []
  | c :: rest, acc =>
    if c = '/' then [] else if c = '.' then c :: acc else extAux rest (c :: acc)

/-- Go `path.Ext`: the suffix beginning at the final dot in the final
slash-separated element of the path; empty if there is no dot. -/
def pathExt (p : String) : String := ⟨extAux p.data.reverse []⟩

/-- The last-element scan of Go `filepath.Base`, run over the reversed path
(trailing separators already removed): collect characters up to the first
separator. -/
def baseAux : List Char → List Char → List Char
  | [], acc => acc
  | c :: rest, acc => if c = '/' then acc else baseAux rest (c :: acc)

/-- Go `filepath.Base` with `/` as the separator and no volume names: the last
element of the path, trailing slashes removed; `"."` for the empty path and
`"/"` for a path of slashes only. -/
def filepathBase (p : String) : String :=
  if p = "" then "."
  else
    let b := baseAux (p.data.reverse.dropWhile (fun c => c = '/')) []
    if b = [] then "/" else ⟨b⟩

/-- Go `strings.Join`. -/
def stringsJoin : List String → String → String
  | [], _ => ""
  | [a], _ => a
  | a :: b :: rest, sep => a ++ sep ++ stringsJoin (b :: rest) sep

/-- Go `slices.Contains` on strings. -/
def slicesContains (xs : List String) (x : String) : Bool := decide (x ∈ xs)

/-- Lookup in a Go map literal, given as its list of key/value pairs. -/
def mapGet : List (String × String) → String → Option String
  | [], _ => none
  | (k, v) :: rest, key => if k = key then some v else mapGet rest key

/-! ## Tables (`main.go` 46-67, `chrome.go` 13-19, `firefox.go` 12-20, `edge.go` 12-18) -/

def supportedBrowsers : List String := ["chrome", "firefox", "edge"]

def supportedPlatforms : List String :=
  ["linux-amd64", "linux-arm64", "linux-386", "darwin-amd64", "darwin-arm64",
   "windows-amd64", "windows-386"]

def supportedChannels : List String := ["stable", "beta", "dev", "canary"]

def chromePlatformMap : List (String × String) :=
  [("linux-amd64", "linux64"), ("darwin-amd64", "mac-x64"), ("darwin-arm64", "mac-arm64"),
   ("windows-amd64", "win64"), ("windows-386", "win32")]

def geckoPlatformMap : List (String × String) :=
  [("linux-amd64", "linux64"), ("linux-arm64", "linux-aarch64"), ("linux-386", "linux32"),
   ("darwin-amd64", "macos"), ("darwin-arm64", "macos-aarch64"),
   ("windows-amd64", "win64"), ("windows-386", "win32")]

def edgePlatformMap : List (String × String) :=
  [("linux-amd64", "linux64"), ("darwin-amd64", "mac64"), ("darwin-arm64", "mac64_m1"),
   ("windows-amd64", "win64"), ("windows-386", "win32")]

/-! ## Option validation (`main.go` 83-109) -/

/-- The loop of `validateOpts` over the browser arguments: one message is
appended for each argument that is not a supported browser. -/
def browserErrs : List String → List String → List String
  | [], errMsg => errMsg
  | arg :: rest, errMsg =>
    if !slicesContains supportedBrowsers arg then
      browserErrs rest
        (errMsg ++ ["browser " ++ arg ++ " is invalid, can use "
          ++ stringsJoin supportedBrowsers ","])
    else browserErrs rest errMsg

/-- The message of the channel check of `validateOpts`. -/
def channelMsg (optChannel : String) : String :=
  "channel " ++ optChannel ++ " is invalid, can use " ++ stringsJoin supportedChannels ","

/-- The message of the platform check of `validateOpts`. -/
def platformMsg (optPlatform : String) : String :=
  "platform " ++ optPlatform ++ " is invalid, can use " ++ stringsJoin supportedPlatforms ","

/-- Function `validateOpts`: `none` is Go's `nil`; the globals `optChannel` and
`optPlatform` are passed as arguments. -/
def validateOpts (args : List String) (optChannel optPlatform : String) : Option String :=
  let errMsg : List String := []
  let errMsg := if args.length = 0 then errMsg ++ ["browser is required"] else errMsg
  let errMsg := browserErrs args errMsg
  let errMsg :=
    if !slicesContains supportedChannels optChannel then errMsg ++ [channelMsg optChannel]
    else errMsg
  if !slicesContains supportedPlatforms optPlatform then
    some (platformMsg optPlatform)
  else if errMsg.length > 0 then
    some (stringsJoin errMsg "\n")
  else none

/-! ## The outside world -/

/-- An `io.Reader` over the content of an archive member: the bytes it delivers
and how it stops, with `io.EOF` (`none`) or with a read error after the bytes
(`some e`). -/
structure Reader where
  data : List Nat
  err : Option String
deriving DecidableEq, Repr

/-- A `zip.File`: header fields and what `Open()` returns. -/
structure ZipFile where
  name : String
  mode : Nat
  modified : Nat
  opened : Except String Reader

/-- A `tar.Header` with the content the tar reader delivers for that entry. -/
structure TarEntry where
  name : String
  mode : Nat
  modTime : Nat
  content : Reader
deriving DecidableEq, Repr

/-- What successive `tr.Next()` calls return: the entries in stream order, then
`io.EOF` (`tail = none`) or another error (`tail = some e`). -/
structure TarStream where
  entries : List TarEntry
  tail : Option String

/-- A downloaded body as the two decoders see it: the result of
`zip.NewReader` and of `gzip.NewReader` followed by `tar.NewReader`. -/
structure Body where
  zip : Except String (List ZipFile)
  tgz : Except String TarStream

/-- A `tr.status-ok` row of the Chrome page: the text of
`th:first-child > code`, `th:nth-child(2) > code`, `td:nth-child(3)` and
`td:nth-child(4)`. -/
structure ChromeRow where
  binary : String
  platform : String
  url : String
  status : String
deriving DecidableEq, Repr

/-- A card of the Edge page: the `href` attribute (if present) of each anchor
selected by `div.block-web-driver__version-links > a`, in document order. -/
structure Card where
  links : List (Option String)
deriving DecidableEq, Repr

/-- A parsed HTML document, seen through the selectors the program uses. -/
structure Document where
  /-- Rows of `#<channel> table tbody tr.status-ok`, in document order. -/
  chromeRows : String → List ChromeRow
  /-- For each element of `main section`, the text of its `h2.sr-only`. -/
  sections : List String
  /-- The `href` attribute (if present) of each `a.Truncate`, in document order. -/
  anchors : List (Option String)
  /-- Elements of `div[data-fetch-key="block-web-driver:0"] .common-card-list__card`. -/
  cards : List Card

/-- Everything outside the program. -/
structure Env where
  /-- Outcome of the GET, status check and HTML parse of `getDocument`. -/
  page : String → Except String Document
  /-- Outcome of the GET, status check and body read of `fetchBody`. -/
  body : String → Except String Body
  /-- Error of `os.Stat` other than "does not exist", if any. -/
  statErr : String → Option String
  /-- Error of `os.OpenFile`, if any. -/
  openErr : String → Option String
  /-- Error of `os.Chtimes`, if any. -/
  chtimesErr : String → Option String
  /-- Result of `os.Getwd`. -/
  getwd : Except String String
  /-- Go `filepath.Join` of two elements. -/
  join : String → String → String
  /-- Clock reading stamped on a file when it is written. -/
  now : Nat

/-- A regular file. -/
structure FileData where
  content : List Nat
  mode : Nat
  mtime : Nat
deriving DecidableEq, Repr

/-- An externally visible action. -/
inductive Event where
  | getDocument (url : String)
  | fetchBody (url : String)
  | openFile (path : String)
  | chtimes (path : String)
deriving DecidableEq, Repr

/-- The state the program changes: the file system and the actions so far. -/
structure World where
  files : List (String × FileData)
  trace : List Event
deriving DecidableEq, Repr

deriving instance DecidableEq for Except

/-- Result of a Go function returning `(α, error)`, with the world after it. -/
abbrev Result (α : Type) := Except String α × World

/-- The file at a path, if any. -/
def fsGet : List (String × FileData) → String → Option FileData
  | [], _ => none
  | (p, d) :: rest, path => if p = path then some d else fsGet rest path

/-- Create or replace the file at a path. -/
def fsPut : List (String × FileData) → String → FileData → List (String × FileData)
  | [], path, d => [(path, d)]
  | (p, x) :: rest, path, d =>
    if p = path then (p, d) :: rest else (p, x) :: fsPut rest path d

/-! ## Network and file primitives (`main.go` 111-188) -/

/-- Function `getDocument`. -/
def getDocument (env : Env) (url : String) (w : World) : Result Document :=
  (env.page url, { w with trace := w.trace ++ [Event.getDocument url] })

/-- Function `fetchBody`. -/
def fetchBody (env : Env) (url : String) (w : World) : Result Body :=
  (env.body url, { w with trace := w.trace ++ [Event.fetchBody url] })

/-- Function `saveToFile`: `os.Stat`; then `os.OpenFile` with
`O_WRONLY|O_CREATE|O_TRUNC` (`w1`: the file exists and is empty; an existing
file keeps its mode); then `bufW.ReadFrom(reader)` with the deferred `Flush`
and `Close` (`w2`: every byte the reader delivered is in the file); the
reader's error, if any, is returned. Writes themselves do not fail. -/
def saveToFile (env : Env) (reader : Reader) (saveFilename : String) (mode : Nat)
    (w : World) : Result Unit :=
  match env.statErr saveFilename with
  | some e => (.error e, w)
  | none =>
    match env.openErr saveFilename with
    | some e => (.error e, w)
    | none =>
      let m := match fsGet w.files saveFilename with
        | some old => old.mode
        | none => mode
      let w1 : World :=
        { files := fsPut w.files saveFilename ⟨[], m, env.now⟩,
          trace := w.trace ++ [Event.openFile saveFilename] }
      let w2 : World :=
        { w1 with files := fsPut w1.files saveFilename ⟨reader.data, m, env.now⟩ }
      match reader.err with
      | some e => (.error e, w2)
      | none => (.ok (), w2)

/-- Call `os.Chtimes(path, t, t)`. -/
def chtimes (env : Env) (path : String) (t : Nat) (w : World) : Result Unit :=
  let w1 : World := { w with trace := w.trace ++ [Event.chtimes path] }
  match env.chtimesErr path with
  | some e => (.error e, w1)
  | none =>
    match fsGet w.files path with
    | none => (.error ("chtimes " ++ path ++ ": no such file or directory"), w1)
    | some d => (.ok (), { w1 with files := fsPut w.files path { d with mtime := t } })

/-! ## Archive extraction (`main.go` 190-293) -/

/-- The entry loop of `fetchZIP` (lines 201-209). -/
def zipFind (targetFilename : String) : List ZipFile → Option ZipFile
  | [] => none
  | f :: rest =>
    if filepathBase f.name = targetFilename then some f else zipFind targetFilename rest

/-- Lines 215-235 of `fetchZIP`, after an entry was selected: open it and save
its content with its mode; on success its modification time is returned. -/
def saveZipMember (env : Env) (zipFile : ZipFile) (saveFilename : String) (w : World) :
    Result Nat :=
  match zipFile.opened with
  | .error e => (.error e, w)
  | .ok rc =>
    match saveToFile env rc saveFilename zipFile.mode w with
    | (.error e, w2) => (.error e, w2)
    | (.ok _, w2) => (.ok zipFile.modified, w2)

/-- Function `fetchZIP`. -/
def fetchZIP (env : Env) (url targetFilename saveFilename : String) (w : World) : Result Nat :=
  match fetchBody env url w with
  | (.error e, w1) => (.error e, w1)
  | (.ok buf, w1) =>
    match buf.zip with
    | .error e => (.error e, w1)
    | .ok files =>
      match zipFind targetFilename files with
      | none => (.error ("file not found: " ++ targetFilename), w1)
      | some zipFile => saveZipMember env zipFile saveFilename w1

/-- The `tr.Next()` loop of `fetchTGZ` (lines 259-273): `.ok none` when the
stream ends with `io.EOF` before a match, `.error e` when `Next` fails. -/
def tarFind (targetFilename : String) (tail : Option String) :
    List TarEntry → Except String (Option TarEntry)
  | [] =>
    match tail with
    | none => .ok none
    | some e => .error e
  | th :: rest =>
    if filepathBase th.name = targetFilename then .ok (some th)
    else tarFind targetFilename tail rest

/-- Lines 279-292 of `fetchTGZ`, after a header was selected: save the content
the tar reader delivers for it, with its mode; on success its modification
time is returned. -/
def saveTarMember (env : Env) (tarHeader : TarEntry) (saveFilename : String) (w : World) :
    Result Nat :=
  match saveToFile env tarHeader.content saveFilename tarHeader.mode w with
  | (.error e, w2) => (.error e, w2)
  | (.ok _, w2) => (.ok tarHeader.modTime, w2)

/-- Function `fetchTGZ`. -/
def fetchTGZ (env : Env) (url targetFilename saveFilename : String) (w : World) : Result Nat :=
  match fetchBody env url w with
  | (.error e, w1) => (.error e, w1)
  | (.ok buf, w1) =>
    match buf.tgz with
    | .error e => (.error e, w1)
    | .ok tr =>
      match tarFind targetFilename tr.tail tr.entries with
      | .error e => (.error e, w1)
      | .ok none => (.error ("file " ++ targetFilename ++ " is not found"), w1)
      | .ok (some tarHeader) => saveTarMember env tarHeader saveFilename w1

/-- Lines 296-301 of `fetchAndSaveFile`: the destination path. -/
def saveFilenameOf (env : Env) (target savePath drvName : String) : String :=
  if drvName.length > 0 then env.join savePath drvName else env.join savePath target

/-- Lines 321-337 of `fetchAndSaveFile`, after the `switch`: an error is
returned as it is, otherwise the file's times are set to the member's
modification time. -/
def stampFile (env : Env) (saveFilename : String) (r : Result Nat) : Result Unit :=
  match r with
  | (.error e, w1) => (.error e, w1)
  | (.ok modTm, w1) =>
    match chtimes env saveFilename modTm w1 with
    | (.error e, w2) => (.error e, w2)
    | (.ok _, w2) => (.ok (), w2)

/-- Function `fetchAndSaveFile`: the `switch` on `path.Ext(fileURL)`. -/
def fetchAndSaveFile (env : Env) (fileURL target savePath drvName : String) (w : World) :
    Result Unit :=
  let saveFilename := saveFilenameOf env target savePath drvName
  stampFile env saveFilename
    (if pathExt fileURL = ".gz" ∨ pathExt fileURL = ".tgz" then
      fetchTGZ env fileURL target saveFilename w
    else if pathExt fileURL = ".zip" then
      fetchZIP env fileURL target saveFilename w
    else
      (.error ("extension " ++ pathExt fileURL ++ " is not a valid file"), w))

/-! ## Chrome (`chrome.go`) -/

/-- The body of the `Each` callback of `downloadChromeDriver` (lines 36-68) for
one row, given the current value of `dlURL`; the result is its new value. -/
def chromeRowStep (platform : String) (dlURL : String) (sel : ChromeRow) : String :=
  let s := trimSpace sel.binary
  if s ≠ "chromedriver" then dlURL
  else
    let s := trimSpace sel.platform
    if s ≠ platform then dlURL
    else
      let s := trimSpace sel.status
      if s ≠ "200" then dlURL
      else
        let s := trimSpace sel.url
        if s.length > 0 then s else dlURL

/-- The `Each` loop of `downloadChromeDriver`: `dlURL` starts empty and the
callback runs on every row in document order. -/
def chromeScan (platform : String) (rows : List ChromeRow) : String :=
  rows.foldl (chromeRowStep platform) ""

/-- The target member name of `downloadChromeDriver` (lines 76-79); `platform`
is the vendor tag. -/
def chromeTarget (platform : String) : String :=
  if hasPrefix platform "win" then "chromedriver" ++ ".exe" else "chromedriver"

/-- Lines 22-79 of `downloadChromeDriver`: everything up to the call of
`fetchAndSaveFile`; the result is the pair `(dlURL, target)` passed to it. The
variable `platform` is overwritten by the map lookup, so the message of the
first error is formatted with the empty string. -/
def chromeResolve (env : Env) (channel platform : String) (w : World) :
    Result (String × String) :=
  match mapGet chromePlatformMap platform with
  | none => (.error ("" ++ " is not a supported platform for chromedriver"), w)
  | some platform =>
    match getDocument env "https://googlechromelabs.github.io/chrome-for-testing/" w with
    | (.error e, w1) => (.error e, w1)
    | (.ok doc, w1) =>
      let dlURL := chromeScan platform (doc.chromeRows channel)
      if dlURL.length = 0 then (.error "download URL not found", w1)
      else (.ok (dlURL, chromeTarget platform), w1)

/-- Function `downloadChromeDriver`. -/
def downloadChromeDriver (env : Env) (channel platform savePath drvName : String)
    (w : World) : Result Unit :=
  match chromeResolve env channel platform w with
  | (.error e, w1) => (.error e, w1)
  | (.ok (dlURL, target), w1) => fetchAndSaveFile env dlURL target savePath drvName w1

/-! ## Firefox (`firefox.go`) and Edge (`edge.go`) -/

/-- The body of the `Each` callback of `downloadGeckoDriver` (lines 75-92) and
of `downloadEdgeDriver` (lines 96-112), which are the same: nothing changes
once `dlURL` is set or when the anchor has no `href`; otherwise an `href`
with the suffix becomes `dlURL`. -/
def hrefStep (suffix : String) (dlURL : String) (href : Option String) : String :=
  if dlURL.length > 0 then dlURL
  else
    match href with
    | none => dlURL
    | some href => if hasSuffix href suffix then href else dlURL

/-- The `Each` loop over anchors: `dlURL` starts empty. -/
def hrefScan (suffix : String) (anchors : List (Option String)) : String :=
  anchors.foldl (hrefStep suffix) ""

/-- The archive extension chosen by `downloadGeckoDriver` (lines 30-37);
`platform` is the vendor tag. -/
def geckoExt (platform : String) : String :=
  if hasPrefix platform "win" then "zip" else "tar.gz"

/-- The target member name of `downloadGeckoDriver` (lines 31-37). -/
def geckoTarget (platform : String) : String :=
  if hasPrefix platform "win" then "geckodriver" ++ ".exe" else "geckodriver"

/-- The search suffix of `downloadGeckoDriver` (line 44). -/
def geckoSuffix (platform : String) : String :=
  "-" ++ platform ++ "." ++ geckoExt platform

/-- Lines 23-99 of `downloadGeckoDriver`: everything up to the call of
`fetchAndSaveFile`; the result is the pair `(dlURL, target)` passed to it. -/
def geckoResolve (env : Env) (platform : String) (w : World) : Result (String × String) :=
  match mapGet geckoPlatformMap platform with
  | none => (.error ("" ++ " is not a supported platform for geckodriver"), w)
  | some platform =>
    match getDocument env "https://github.com/mozilla/geckodriver/releases" w with
    | (.error e, w1) => (.error e, w1)
    | (.ok doc, w1) =>
      let suffix := geckoSuffix platform
      match doc.sections with
      | [] => (.error "not found section", w1)
      | ver :: _ =>
        match getDocument env
            ("https://github.com/mozilla/geckodriver/releases/expanded_assets/v" ++ ver) w1 with
        | (.error e, w2) => (.error e, w2)
        | (.ok doc, w2) =>
          let dlURL := hrefScan suffix doc.anchors
          if dlURL.length = 0 then (.error ("not found download link for " ++ platform), w2)
          else (.ok ("https://github.com" ++ dlURL, geckoTarget platform), w2)

/-- Function `downloadGeckoDriver`; the channel argument is ignored by the source. -/
def downloadGeckoDriver (env : Env) (_channel platform savePath drvName : String)
    (w : World) : Result Unit :=
  match geckoResolve env platform w with
  | (.error e, w1) => (.error e, w1)
  | (.ok (dlURL, target), w1) => fetchAndSaveFile env dlURL target savePath drvName w1

/-- The `switch channel` of `downloadEdgeDriver` (lines 64-74); `childIdx` keeps
Go's zero value for any other channel. -/
def edgeChildIdx (channel : String) : Nat :=
  if channel = "stable" then 0
  else if channel = "beta" then 1
  else if channel = "dev" then 2
  else if channel = "canary" then 3
  else 0

/-- The target member name of `downloadEdgeDriver` (lines 124-127); `platform`
is the platform key, not the vendor tag. -/
def edgeTarget (platform : String) : String :=
  if hasPrefix platform "win" then "msedgedriver" ++ ".exe" else "msedgedriver"

/-- Lines 21-127 of `downloadEdgeDriver`: everything up to the call of
`fetchAndSaveFile`; the result is the pair `(dlURL, target)` passed to it.
`Eq(childIdx)` is the element at that index, or the empty selection. -/
def edgeResolve (env : Env) (channel platform : String) (w : World) :
    Result (String × String) :=
  match mapGet edgePlatformMap platform with
  | none => (.error ("invalid platform: " ++ platform), w)
  | some labelPlatform =>
    match getDocument env
        "https://developer.microsoft.com/en-us/microsoft-edge/tools/webdriver/?form=MA13LH" w with
    | (.error e, w1) => (.error e, w1)
    | (.ok doc, w1) =>
      match doc.cards[edgeChildIdx channel]? with
      | none => (.error ("not found parent element: " ++ channel ++ " " ++ platform), w1)
      | some parent =>
        let links := parent.links
        if links.length = 0 then
          (.error ("not found download link: " ++ channel ++ " " ++ platform), w1)
        else
          let suffix := "edgedriver_" ++ labelPlatform ++ ".zip"
          let dlURL := hrefScan suffix links
          if dlURL.length = 0 then
            (.error ("not found href attribute: " ++ channel ++ " " ++ platform), w1)
          else (.ok (dlURL, edgeTarget platform), w1)

/-- Function `downloadEdgeDriver`. -/
def downloadEdgeDriver (env : Env) (channel platform savePath drvName : String)
    (w : World) : Result Unit :=
  match edgeResolve env channel platform w with
  | (.error e, w1) => (.error e, w1)
  | (.ok (dlURL, target), w1) => fetchAndSaveFile env dlURL target savePath drvName w1

/-! ## Dispatch (`main.go` 340-386) -/

/-- The `for _, arg := range args` loop of `run` (lines 354-383). -/
def runLoop (env : Env) (optChannel optPlatform savePath optDriverName : String) :
    List String → World → Result Unit
  | [], w => (.ok (), w)
  | arg :: rest, w =>
    let r : Result Unit :=
      if arg = "chrome" then
        downloadChromeDriver env optChannel optPlatform savePath optDriverName w
      else if arg = "edge" then
        downloadEdgeDriver env optChannel optPlatform savePath optDriverName w
      else if arg = "firefox" then
        downloadGeckoDriver env optChannel optPlatform savePath optDriverName w
      else (.error ("invalid browser: " ++ arg), w)
    match r with
    | (.error e, w1) => (.error e, w1)
    | (.ok _, w1) => runLoop env optChannel optPlatform savePath optDriverName rest w1

/-- Function `run`; the option globals are passed as arguments. -/
def run (env : Env) (optChannel optPlatform optSavePath optDriverName : String)
    (args : List String) (w : World) : Result Unit :=
  match validateOpts args optChannel optPlatform with
  | some e => (.error e, w)
  | none =>
    let savePath : Except String String :=
      if optSavePath.length = 0 then env.getwd else .ok optSavePath
    match savePath with
    | .error e => (.error e, w)
    | .ok savePath => runLoop env optChannel optPlatform savePath optDriverName args w

/-- Go `strings.Contains`. -/
def strContains (s sub : String) : Bool := decide (sub.data <:+: s.data)


/-! ## Properties named by the specification -/

/-- The four conditions of the specification for a Chrome row to qualify:
trimmed binary cell `chromedriver`, trimmed platform cell equal to the vendor
tag, trimmed status cell `200`, trimmed URL cell non-empty. -/
def specQualifies (platform : String) (row : ChromeRow) : Bool :=
  decide (trimSpace row.binary = "chromedriver" ∧ trimSpace row.platform = platform ∧
    trimSpace row.status = "200" ∧ trimSpace row.url ≠ "")

/-! ## Fixtures -/

/-- A Chrome page whose `#stable` section lists a `chrome` row, two
`chromedriver` rows for `linux64` (both with status 200) and one for `win32`. -/
def fixChromeDoc : Document where
  chromeRows := fun channel =>
    if channel = "stable" then
      [⟨"chrome", "linux64", "https://dl.test/138/chrome-linux64.zip", "200"⟩,
       ⟨" chromedriver ", "linux64", " https://dl.test/138/chromedriver-linux64.zip\n", "200"⟩,
       ⟨"chromedriver", "linux64", "https://dl.test/139/chromedriver-linux64.zip", "200"⟩,
       ⟨"chromedriver", "win32", "https://dl.test/138/chromedriver-win32.zip", "200"⟩]
    else []
  sections := []
  anchors := []
  cards := []

/-- A geckodriver releases index with two release sections. -/
def fixGeckoIndex : Document where
  chromeRows := fun _ => []
  sections := ["0.36.0", "0.35.0"]
  anchors := []
  cards := []

/-- The expanded-assets page of release 0.36.0. -/
def fixGeckoAssets : Document where
  chromeRows := fun _ => []
  sections := []
  anchors :=
    [none,
     some "/moz/dl/v0.36.0/geckodriver-v0.36.0-macos-aarch64.tar.gz.sha256",
     some "/moz/dl/v0.36.0/geckodriver-v0.36.0-macos-aarch64.tar.gz",
     some "/moz/dl/v0.36.0/geckodriver-v0.36.0-win32.zip",
     some "/moz/mirror/geckodriver-v0.36.0-macos-aarch64.tar.gz"]
  cards := []

/-- A card with an anchor without `href`, a `mac64` link and two `win64` links. -/
def fixCanaryCard : Card where
  links :=
    [none, some "https://ms.test/141/edgedriver_mac64.zip",
     some "https://ms.test/141/edgedriver_win64.zip",
     some "https://ms.test/141b/edgedriver_win64.zip"]

/-- An Edge page with four cards; the fourth (canary) is `fixCanaryCard`. -/
def fixEdgeDoc : Document where
  chromeRows := fun _ => []
  sections := []
  anchors := []
  cards :=
    [⟨[some "https://ms.test/138/edgedriver_win64.zip"]⟩,
     ⟨[some "https://ms.test/139/edgedriver_win64.zip"]⟩,
     ⟨[]⟩,
     fixCanaryCard]

/-- An Edge page with only three cards. -/
def fixEdgeShortDoc : Document where
  chromeRows := fun _ => []
  sections := []
  anchors := []
  cards := fixEdgeDoc.cards.take 3

/-- A zip archive with two entries whose base name is `chromedriver`. -/
def fixZip : List ZipFile :=
  [⟨"chromedriver-linux64/LICENSE.chromedriver", 420, 1700, .ok ⟨[76], none⟩⟩,
   ⟨"chromedriver-linux64/chromedriver", 493, 1701, .ok ⟨[127, 69, 76, 70], none⟩⟩,
   ⟨"extra/chromedriver", 493, 1702, .ok ⟨[0], none⟩⟩]

/-- A zip archive whose `chromedriver` member delivers one byte and then fails. -/
def fixBrokenZip : List ZipFile :=
  [⟨"chromedriver", 493, 1703, .ok ⟨[9], some "unexpected EOF"⟩⟩]

/-- A tar stream with two entries whose base name is `geckodriver`. -/
def fixTar : TarStream where
  entries :=
    [⟨"README", 420, 1800, ⟨[82], none⟩⟩,
     ⟨"./geckodriver", 493, 1801, ⟨[127, 69], none⟩⟩,
     ⟨"old/geckodriver", 493, 1802, ⟨[1], none⟩⟩]
  tail := none

/-- A web with the fixture pages and archives; the operating system reports
no errors, the working directory is `/work` and paths are joined with `/`. -/
def fixEnv : Env where
  page := fun url =>
    if url = "https://googlechromelabs.github.io/chrome-for-testing/" then .ok fixChromeDoc
    else if url = "https://github.com/mozilla/geckodriver/releases" then .ok fixGeckoIndex
    else if url = "https://github.com/mozilla/geckodriver/releases/expanded_assets/v0.36.0" then
      .ok fixGeckoAssets
    else if url =
        "https://developer.microsoft.com/en-us/microsoft-edge/tools/webdriver/?form=MA13LH" then
      .ok fixEdgeDoc
    else .error "unexpected status: 404 Not Found"
  body := fun url =>
    if url = "https://dl.test/139/chromedriver-linux64.zip" then
      .ok ⟨.ok fixZip, .error "gzip: invalid header"⟩
    else if url = "https://dl.test/broken.zip" then
      .ok ⟨.ok fixBrokenZip, .error "gzip: invalid header"⟩
    else if url = "https://dl.test/geckodriver.tar.gz" ∨ url = "https://dl.test/driver.gz" then
      .ok ⟨.error "zip: not a valid zip file", .ok fixTar⟩
    else .error "unexpected status: 404 Not Found"
  statErr := fun _ => none
  openErr := fun _ => none
  chtimesErr := fun _ => none
  getwd := .ok "/work"
  join := fun a b => a ++ "/" ++ b
  now := 2000

/-- The fixture web with the three-card Edge page. -/
def fixEnvShortEdge : Env :=
  { fixEnv with page := fun _ => .ok fixEdgeShortDoc }

/-- A file system holding an older `chromedriver`, and an empty trace. -/
def fixWorld : World where
  files := [("/work/chromedriver", ⟨[1, 2, 3], 493, 1500⟩)]
  trace := []

/-! ## Theorems: option validation -/

theorem slicesContains_iff (xs : List String) (x : String) :
    slicesContains xs x = true ↔ x ∈ xs := by
  simp [slicesContains]

theorem browserErrs_eq_nil_iff (args errMsg : List String) :
    browserErrs args errMsg = [] ↔ errMsg = [] ∧ ∀ a ∈ args, a ∈ supportedBrowsers := by
  induction args generalizing errMsg with
  | nil => simp [browserErrs]
  | cons a rest ih =>
    by_cases h : a ∈ supportedBrowsers
    · simp [browserErrs, slicesContains, h, ih]
    · simp [browserErrs, slicesContains, h, ih]

/-- C8. `validateOpts` returns nil exactly when the browser list is non-empty,
every browser is supported, the channel is supported and the platform is
supported; `run` returns any error of `validateOpts` with the world untouched
(no download function has run, no request was made); in particular with platform
`darwin-386` it fails so for every browser list, channel and environment. -/
theorem validateOpts_nil_iff_and_run_stops (env : Env)
    (optChannel optPlatform optSavePath optDriverName : String) (args : List String)
    (w : World) :
    (validateOpts args optChannel optPlatform = none ↔
      (args ≠ [] ∧ (∀ a ∈ args, a ∈ supportedBrowsers) ∧
        optChannel ∈ supportedChannels ∧ optPlatform ∈ supportedPlatforms)) ∧
    (∀ e, validateOpts args optChannel optPlatform = some e →
      run env optChannel optPlatform optSavePath optDriverName args w = (.error e, w)) ∧
    run env optChannel "darwin-386" optSavePath optDriverName args w =
      (.error ("platform darwin-386 is invalid, can use linux-amd64,linux-arm64,"
        ++ "linux-386,darwin-amd64,darwin-arm64,windows-amd64,windows-386"), w) := by
  refine ⟨?_, ?_, ?_⟩
  · unfold validateOpts
    by_cases hp : optPlatform ∈ supportedPlatforms
    · by_cases hc : optChannel ∈ supportedChannels
      · by_cases ha : args = []
        · subst ha
          simp [slicesContains, hp, hc, browserErrs]
        · have hlen : args.length ≠ 0 := by
            intro h0
            exact ha (List.length_eq_zero.mp h0)
          simp only [slicesContains, hp, hc, hlen, decide_True, Bool.not_true,
            if_false, Bool.false_eq_true, List.nil_append]
          by_cases hb : ∀ a ∈ args, a ∈ supportedBrowsers
          · have hnil : browserErrs args [] = [] := (browserErrs_eq_nil_iff args []).2 ⟨rfl, hb⟩
            simp [hnil, ha]
            exact hb
          · have hne : browserErrs args [] ≠ [] := fun h =>
              hb ((browserErrs_eq_nil_iff args []).1 h).2
            have hpos : (browserErrs args []).length > 0 := List.length_pos.mpr hne
            simp [hpos, hb]
      · simp [slicesContains, hp, hc]
    · simp [slicesContains, hp]
  · intro e he
    simp [run, he]
  · have hv : validateOpts args optChannel "darwin-386" = some (platformMsg "darwin-386") := by
      have hp : slicesContains supportedPlatforms "darwin-386" = false := by decide
      simp [validateOpts, hp]
    have hm : platformMsg "darwin-386" =
        "platform darwin-386 is invalid, can use linux-amd64,linux-arm64,"
          ++ "linux-386,darwin-amd64,darwin-arm64,windows-amd64,windows-386" := by decide
    simp [run, hv, hm]

/-- C8, at the fixture: `run` with platform `darwin-386` stops at validation. -/
theorem validateOpts_nil_iff_and_run_stops_witness :
    validateOpts ["chrome"] "stable" "darwin-386" = some (platformMsg "darwin-386") ∧
    run fixEnv "stable" "darwin-386" "" "" ["chrome"] fixWorld =
      (.error (platformMsg "darwin-386"), fixWorld) :=
  ⟨by decide,
   (validateOpts_nil_iff_and_run_stops fixEnv "stable" "darwin-386" "" "" ["chrome"]
      fixWorld).2.1 (platformMsg "darwin-386") (by decide)⟩

/-- C9. With an unsupported browser, an unsupported channel and an unsupported
platform at once, the error of `validateOpts` is the platform message alone:
it contains neither the browser message nor the channel message, while with a
supported platform the same browser and channel problems are reported
together. -/
theorem validateOpts_platform_error_hides_other_problems :
    validateOpts ["opera"] "nightly" "darwin-386" = some (platformMsg "darwin-386") ∧
    strContains (platformMsg "darwin-386") (channelMsg "nightly") = false ∧
    strContains (platformMsg "darwin-386")
      "browser opera is invalid, can use chrome,firefox,edge" = false ∧
    validateOpts ["opera"] "nightly" "linux-amd64" =
      some ("browser opera is invalid, can use chrome,firefox,edge\n"
        ++ "channel nightly is invalid, can use stable,beta,dev,canary") := by
  decide

/-! ## Theorems: platform tables -/

theorem mapGet_some_mem (m : List (String × String)) (k v : String)
    (h : mapGet m k = some v) : (k, v) ∈ m := by
  induction m with
  | nil => simp [mapGet] at h
  | cons kv rest ih =>
    obtain ⟨k0, v0⟩ := kv
    by_cases hk : k0 = k
    · simp [mapGet, hk] at h
      simp [hk, h]
    · simp [mapGet, hk] at h
      simp [ih h]

theorem mapGet_eq_none_iff (m : List (String × String)) (k : String) :
    mapGet m k = none ↔ k ∉ m.map Prod.fst := by
  induction m with
  | nil => simp [mapGet]
  | cons kv rest ih =>
    obtain ⟨k0, v0⟩ := kv
    by_cases hk : k0 = k
    · simp [mapGet, hk]
    · have hk2 : ¬ k = k0 := fun h => hk h.symm
      simp [mapGet, hk, hk2, ih]

/-- C4, as stated, fails: `linux-arm64` and `linux-386` are supported platforms
for which the Chrome table and the Edge table have no vendor tag. -/
theorem not_every_table_covers_supportedPlatforms :
    ¬ (∀ p ∈ supportedPlatforms,
        (mapGet chromePlatformMap p).isSome = true ∧
        (mapGet geckoPlatformMap p).isSome = true ∧
        (mapGet edgePlatformMap p).isSome = true) := by
  intro h
  have h1 := (h "linux-arm64" (by decide)).1
  revert h1
  decide

/-- C4, amended. For a supported platform key the Firefox table always has a
vendor tag, and the Chrome and Edge tables have one exactly when the key is
neither `linux-arm64` nor `linux-386`; `darwin-arm64` maps to `mac-arm64`,
`macos-aarch64` and `mac64_m1`; for a key outside `supportedPlatforms` each of
the three download functions fails with its unsupported-platform error and
leaves the world as it was (no `getDocument`), and so do the Chrome and Edge
functions for `linux-arm64` and `linux-386`. -/
theorem platform_tables_and_unsupported_keys (env : Env)
    (channel p savePath drvName : String) (w : World) :
    (p ∈ supportedPlatforms →
      (mapGet geckoPlatformMap p).isSome = true ∧
      ((mapGet chromePlatformMap p).isSome = true ↔ (p ≠ "linux-arm64" ∧ p ≠ "linux-386")) ∧
      ((mapGet edgePlatformMap p).isSome = true ↔ (p ≠ "linux-arm64" ∧ p ≠ "linux-386"))) ∧
    (mapGet chromePlatformMap "darwin-arm64" = some "mac-arm64" ∧
      mapGet geckoPlatformMap "darwin-arm64" = some "macos-aarch64" ∧
      mapGet edgePlatformMap "darwin-arm64" = some "mac64_m1") ∧
    (p ∉ supportedPlatforms →
      downloadChromeDriver env channel p savePath drvName w =
        (.error " is not a supported platform for chromedriver", w) ∧
      downloadGeckoDriver env channel p savePath drvName w =
        (.error " is not a supported platform for geckodriver", w) ∧
      downloadEdgeDriver env channel p savePath drvName w =
        (.error ("invalid platform: " ++ p), w)) ∧
    ((p = "linux-arm64" ∨ p = "linux-386") →
      downloadChromeDriver env channel p savePath drvName w =
        (.error " is not a supported platform for chromedriver", w) ∧
      downloadEdgeDriver env channel p savePath drvName w =
        (.error ("invalid platform: " ++ p), w)) := by
  refine ⟨?_, by decide, ?_, ?_⟩
  · intro hp
    simp only [supportedPlatforms, List.mem_cons, List.mem_singleton, List.not_mem_nil,
      or_false] at hp
    rcases hp with rfl | rfl | rfl | rfl | rfl | rfl | rfl <;> decide
  · intro hp
    have hc : mapGet chromePlatformMap p = none := by
      rw [mapGet_eq_none_iff]
      intro hm
      apply hp
      simp only [chromePlatformMap, supportedPlatforms, List.map, List.mem_cons,
        List.mem_singleton, List.not_mem_nil, or_false] at hm ⊢
      tauto
    have hg : mapGet geckoPlatformMap p = none := by
      rw [mapGet_eq_none_iff]
      intro hm
      apply hp
      simp only [geckoPlatformMap, supportedPlatforms, List.map, List.mem_cons,
        List.mem_singleton, List.not_mem_nil, or_false] at hm ⊢
      tauto
    have he : mapGet edgePlatformMap p = none := by
      rw [mapGet_eq_none_iff]
      intro hm
      apply hp
      simp only [edgePlatformMap, supportedPlatforms, List.map, List.mem_cons,
        List.mem_singleton, List.not_mem_nil, or_false] at hm ⊢
      tauto
    refine ⟨?_, ?_, ?_⟩
    · simp [downloadChromeDriver, chromeResolve, hc]
    · simp [downloadGeckoDriver, geckoResolve, hg]
    · simp [downloadEdgeDriver, edgeResolve, he]
  · intro hp
    rcases hp with rfl | rfl
    · exact ⟨by simp [downloadChromeDriver, chromeResolve, show mapGet chromePlatformMap
          "linux-arm64" = none by decide],
        by simp [downloadEdgeDriver, edgeResolve, show mapGet edgePlatformMap
          "linux-arm64" = none by decide]⟩
    · exact ⟨by simp [downloadChromeDriver, chromeResolve, show mapGet chromePlatformMap
          "linux-386" = none by decide],
        by simp [downloadEdgeDriver, edgeResolve, show mapGet edgePlatformMap
          "linux-386" = none by decide]⟩

/-- C4, at the fixture: `darwin-386` is rejected by all three download
functions and `linux-arm64` by the Chrome and Edge ones, each time before any
request. -/
theorem platform_tables_and_unsupported_keys_witness :
    (downloadChromeDriver fixEnv "stable" "darwin-386" "/work" "" fixWorld =
        (.error " is not a supported platform for chromedriver", fixWorld) ∧
      downloadGeckoDriver fixEnv "stable" "darwin-386" "/work" "" fixWorld =
        (.error " is not a supported platform for geckodriver", fixWorld) ∧
      downloadEdgeDriver fixEnv "stable" "darwin-386" "/work" "" fixWorld =
        (.error ("invalid platform: " ++ "darwin-386"), fixWorld)) ∧
    (downloadChromeDriver fixEnv "stable" "linux-arm64" "/work" "" fixWorld =
        (.error " is not a supported platform for chromedriver", fixWorld) ∧
      downloadEdgeDriver fixEnv "stable" "linux-arm64" "/work" "" fixWorld =
        (.error ("invalid platform: " ++ "linux-arm64"), fixWorld)) ∧
    (mapGet geckoPlatformMap "linux-arm64").isSome = true :=
  ⟨(platform_tables_and_unsupported_keys fixEnv "stable" "darwin-386" "/work" ""
      fixWorld).2.2.1 (by decide),
   (platform_tables_and_unsupported_keys fixEnv "stable" "linux-arm64" "/work" ""
      fixWorld).2.2.2 (Or.inl rfl),
   ((platform_tables_and_unsupported_keys fixEnv "stable" "linux-arm64" "/work" ""
      fixWorld).1 (by decide)).1⟩

/-! ## Theorems: target member names -/

theorem chromeResolve_target (env : Env) (channel p tag : String) (w w' : World)
    (url target : String) (h : mapGet chromePlatformMap p = some tag)
    (hr : chromeResolve env channel p w = (.ok (url, target), w')) :
    target = chromeTarget tag := by
  unfold chromeResolve at hr
  rw [h] at hr
  simp only [getDocument] at hr
  split at hr
  · simp at hr
  · split at hr
    · simp at hr
    · simp only [Prod.mk.injEq, Except.ok.injEq] at hr
      exact hr.1.2.symm

theorem geckoResolve_target (env : Env) (p tag : String) (w w' : World)
    (url target : String) (h : mapGet geckoPlatformMap p = some tag)
    (hr : geckoResolve env p w = (.ok (url, target), w')) :
    target = geckoTarget tag := by
  unfold geckoResolve at hr
  rw [h] at hr
  simp only [getDocument] at hr
  split at hr
  · simp at hr
  · split at hr
    · simp at hr
    · split at hr
      · simp at hr
      · split at hr
        · simp at hr
        · simp only [Prod.mk.injEq, Except.ok.injEq] at hr
          exact hr.1.2.symm

theorem edgeResolve_target (env : Env) (channel p tag : String) (w w' : World)
    (url target : String) (h : mapGet edgePlatformMap p = some tag)
    (hr : edgeResolve env channel p w = (.ok (url, target), w')) :
    target = edgeTarget p := by
  unfold edgeResolve at hr
  rw [h] at hr
  simp only [getDocument] at hr
  split at hr
  · simp at hr
  · split at hr
    · simp at hr
    · split at hr
      · simp at hr
      · split at hr
        · simp at hr
        · simp only [Prod.mk.injEq, Except.ok.injEq] at hr
          exact hr.1.2.symm

/-- C10. For every platform key in a browser's table, the target member name
the browser's download function computes, and passes to `fetchAndSaveFile`
whenever it resolves a URL, is `chromedriver`, `geckodriver` or
`msedgedriver`, with `.exe` appended exactly when the key is `windows-amd64`
or `windows-386`. -/
theorem target_member_names (env : Env) (channel p tag : String) (w : World) :
    (mapGet chromePlatformMap p = some tag →
      chromeTarget tag =
        (if p = "windows-amd64" ∨ p = "windows-386" then "chromedriver.exe"
         else "chromedriver") ∧
      ∀ url target w', chromeResolve env channel p w = (.ok (url, target), w') →
        target = chromeTarget tag) ∧
    (mapGet geckoPlatformMap p = some tag →
      geckoTarget tag =
        (if p = "windows-amd64" ∨ p = "windows-386" then "geckodriver.exe"
         else "geckodriver") ∧
      ∀ url target w', geckoResolve env p w = (.ok (url, target), w') →
        target = geckoTarget tag) ∧
    (mapGet edgePlatformMap p = some tag →
      edgeTarget p =
        (if p = "windows-amd64" ∨ p = "windows-386" then "msedgedriver.exe"
         else "msedgedriver") ∧
      ∀ url target w', edgeResolve env channel p w = (.ok (url, target), w') →
        target = edgeTarget p) := by
  refine ⟨?_, ?_, ?_⟩
  · intro h
    refine ⟨?_, fun url target w' hr => chromeResolve_target env channel p tag w w' url target h hr⟩
    have hm := mapGet_some_mem _ _ _ h
    simp only [chromePlatformMap, List.mem_cons, List.mem_singleton, Prod.mk.injEq,
      List.not_mem_nil, or_false] at hm
    rcases hm with ⟨rfl, rfl⟩ | ⟨rfl, rfl⟩ | ⟨rfl, rfl⟩ | ⟨rfl, rfl⟩ | ⟨rfl, rfl⟩ <;> decide
  · intro h
    refine ⟨?_, fun url target w' hr => geckoResolve_target env p tag w w' url target h hr⟩
    have hm := mapGet_some_mem _ _ _ h
    simp only [geckoPlatformMap, List.mem_cons, List.mem_singleton, Prod.mk.injEq,
      List.not_mem_nil, or_false] at hm
    rcases hm with ⟨rfl, rfl⟩ | ⟨rfl, rfl⟩ | ⟨rfl, rfl⟩ | ⟨rfl, rfl⟩ | ⟨rfl, rfl⟩ |
      ⟨rfl, rfl⟩ | ⟨rfl, rfl⟩ <;> decide
  · intro h
    refine ⟨?_, fun url target w' hr => edgeResolve_target env channel p tag w w' url target h hr⟩
    have hm := mapGet_some_mem _ _ _ h
    simp only [edgePlatformMap, List.mem_cons, List.mem_singleton, Prod.mk.injEq,
      List.not_mem_nil, or_false] at hm
    rcases hm with ⟨rfl, rfl⟩ | ⟨rfl, rfl⟩ | ⟨rfl, rfl⟩ | ⟨rfl, rfl⟩ | ⟨rfl, rfl⟩ <;> decide

/-- C10, at the fixture: the three resolvers succeed for `windows-386` (Chrome),
`darwin-arm64` (Firefox) and `windows-amd64` (Edge); the member is
`chromedriver.exe`, `geckodriver` and `msedgedriver.exe`. -/
theorem target_member_names_witness :
    (mapGet chromePlatformMap "windows-386" = some "win32" ∧
      chromeResolve fixEnv "stable" "windows-386" fixWorld =
        (.ok ("https://dl.test/138/chromedriver-win32.zip", "chromedriver.exe"),
          { fixWorld with trace := [Event.getDocument
            "https://googlechromelabs.github.io/chrome-for-testing/"] }) ∧
      "chromedriver.exe" = chromeTarget "win32" ∧
      chromeTarget "win32" = "chromedriver.exe") ∧
    (mapGet geckoPlatformMap "darwin-arm64" = some "macos-aarch64" ∧
      geckoResolve fixEnv "darwin-arm64" fixWorld =
        (.ok ("https://github.com/moz/dl/v0.36.0/geckodriver-v0.36.0-macos-aarch64.tar.gz",
            "geckodriver"),
          { fixWorld with trace := [Event.getDocument
              "https://github.com/mozilla/geckodriver/releases",
            Event.getDocument
              "https://github.com/mozilla/geckodriver/releases/expanded_assets/v0.36.0"] }) ∧
      "geckodriver" = geckoTarget "macos-aarch64" ∧
      geckoTarget "macos-aarch64" = "geckodriver") ∧
    (mapGet edgePlatformMap "windows-amd64" = some "win64" ∧
      edgeResolve fixEnv "canary" "windows-amd64" fixWorld =
        (.ok ("https://ms.test/141/edgedriver_win64.zip", "msedgedriver.exe"),
          { fixWorld with trace := [Event.getDocument
            "https://developer.microsoft.com/en-us/microsoft-edge/tools/webdriver/?form=MA13LH"] }) ∧
      "msedgedriver.exe" = edgeTarget "windows-amd64" ∧
      edgeTarget "windows-amd64" = "msedgedriver.exe") :=
  ⟨⟨by decide, by decide,
    ((target_member_names fixEnv "stable" "windows-386" "win32" fixWorld).1 (by decide)).2
      "https://dl.test/138/chromedriver-win32.zip" "chromedriver.exe"
      { fixWorld with trace := [Event.getDocument
        "https://googlechromelabs.github.io/chrome-for-testing/"] } (by decide),
    ((target_member_names fixEnv "stable" "windows-386" "win32" fixWorld).1 (by decide)).1⟩,
   ⟨by decide, by decide,
    ((target_member_names fixEnv "stable" "darwin-arm64" "macos-aarch64" fixWorld).2.1
      (by decide)).2
      "https://github.com/moz/dl/v0.36.0/geckodriver-v0.36.0-macos-aarch64.tar.gz"
      "geckodriver"
      { fixWorld with trace := [Event.getDocument
          "https://github.com/mozilla/geckodriver/releases",
        Event.getDocument
          "https://github.com/mozilla/geckodriver/releases/expanded_assets/v0.36.0"] }
      (by decide),
    ((target_member_names fixEnv "stable" "darwin-arm64" "macos-aarch64" fixWorld).2.1
      (by decide)).1⟩,
   ⟨by decide, by decide,
    ((target_member_names fixEnv "canary" "windows-amd64" "win64" fixWorld).2.2
      (by decide)).2
      "https://ms.test/141/edgedriver_win64.zip" "msedgedriver.exe"
      { fixWorld with trace := [Event.getDocument
        "https://developer.microsoft.com/en-us/microsoft-edge/tools/webdriver/?form=MA13LH"] }
      (by decide),
    ((target_member_names fixEnv "canary" "windows-amd64" "win64" fixWorld).2.2
      (by decide)).1⟩⟩

/-! ## Theorems: Chrome row selection -/

theorem string_length_pos_iff (s : String) : s.length > 0 ↔ s ≠ "" := by
  obtain ⟨l⟩ := s
  cases l with
  | nil => simp [String.length]
  | cons a t =>
    simp only [String.length, List.length_cons, gt_iff_lt, Nat.zero_lt_succ, ne_eq, true_iff]
    intro h
    have := congrArg String.data h
    simp at this

theorem chromeRowStep_of_qualifies (platform dlURL : String) (row : ChromeRow)
    (h : specQualifies platform row = true) :
    chromeRowStep platform dlURL row = trimSpace row.url := by
  simp only [specQualifies, decide_eq_true_eq] at h
  obtain ⟨h1, h2, h3, h4⟩ := h
  have h5 : (trimSpace row.url).length > 0 := (string_length_pos_iff _).2 h4
  simp [chromeRowStep, h1, h2, h3, h5]

theorem chromeRowStep_of_not_qualifies (platform dlURL : String) (row : ChromeRow)
    (h : specQualifies platform row = false) :
    chromeRowStep platform dlURL row = dlURL := by
  simp only [specQualifies, decide_eq_false_iff_not] at h
  unfold chromeRowStep
  by_cases h1 : trimSpace row.binary = "chromedriver"
  · by_cases h2 : trimSpace row.platform = platform
    · by_cases h3 : trimSpace row.status = "200"
      · have h4 : ¬ (trimSpace row.url).length > 0 := by
          intro hl
          exact h ⟨h1, h2, h3, (string_length_pos_iff _).1 hl⟩
        simp [h1, h2, h3, h4]
      · simp [h1, h2, h3]
    · simp [h1, h2]
  · simp [h1]

theorem chromeScan_foldl_not_qualifies (platform dlURL : String) (rows : List ChromeRow)
    (h : ∀ r ∈ rows, specQualifies platform r = false) :
    rows.foldl (chromeRowStep platform) dlURL = dlURL := by
  induction rows generalizing dlURL with
  | nil => rfl
  | cons r rest ih =>
    have hr := h r (List.mem_cons_self _ _)
    have hrest : ∀ x ∈ rest, specQualifies platform x = false :=
      fun x hx => h x (List.mem_cons_of_mem _ hx)
    simp only [List.foldl_cons]
    rw [chromeRowStep_of_not_qualifies platform dlURL r hr]
    exact ih dlURL hrest

/-- The row scan of `downloadChromeDriver` keeps the URL of the last
qualifying row, and the empty string when no row qualifies. -/
theorem chromeScan_last_qualifying (platform : String) (rows : List ChromeRow) :
    (∀ pre r post, rows = pre ++ r :: post → specQualifies platform r = true →
      (∀ x ∈ post, specQualifies platform x = false) →
      chromeScan platform rows = trimSpace r.url) ∧
    ((∀ x ∈ rows, specQualifies platform x = false) → chromeScan platform rows = "") := by
  constructor
  · intro pre r post hrows hq hpost
    subst hrows
    simp only [chromeScan, List.foldl_append, List.foldl_cons]
    rw [chromeRowStep_of_qualifies platform _ r hq]
    exact chromeScan_foldl_not_qualifies platform _ post hpost
  · intro h
    exact chromeScan_foldl_not_qualifies platform "" rows h

/-- C1. On a page whose `#stable` section has two qualifying `chromedriver`
rows for `linux64` (the second and the third row), `downloadChromeDriver`
chooses the URL of the later one, release 139, not of the first, release 138,
and downloads from it. -/
theorem chromeResolve_picks_later_row :
    (fixChromeDoc.chromeRows "stable").map (specQualifies "linux64") =
      [false, true, true, false] ∧
    ((fixChromeDoc.chromeRows "stable").map (fun r => trimSpace r.url))[1]? =
      some "https://dl.test/138/chromedriver-linux64.zip" ∧
    chromeResolve fixEnv "stable" "linux-amd64" fixWorld =
      (.ok ("https://dl.test/139/chromedriver-linux64.zip", "chromedriver"),
        { fixWorld with trace := [Event.getDocument
          "https://googlechromelabs.github.io/chrome-for-testing/"] }) ∧
    (downloadChromeDriver fixEnv "stable" "linux-amd64" "/work" "" fixWorld).2.trace =
      [Event.getDocument "https://googlechromelabs.github.io/chrome-for-testing/",
       Event.fetchBody "https://dl.test/139/chromedriver-linux64.zip",
       Event.openFile "/work/chromedriver", Event.chtimes "/work/chromedriver"] := by
  decide

/-! ## Theorems: suffix search over anchors (Firefox, Edge) -/

theorem hasSuffix_iff (s suf : String) : hasSuffix s suf = true ↔ suf.data <:+ s.data := by
  simp only [hasSuffix, decide_eq_true_eq, String.length]
  constructor
  · rintro ⟨_, h⟩
    rw [← h]
    exact List.drop_suffix _ _
  · rintro ⟨t, ht⟩
    rw [← ht]
    simp

theorem hasSuffix_length_le (s suf : String) (h : hasSuffix s suf = true) :
    suf.length ≤ s.length := by
  simp only [hasSuffix, decide_eq_true_eq] at h
  exact h.1

theorem hrefStep_of_set (suffix dlURL : String) (a : Option String)
    (h : dlURL.length > 0) : hrefStep suffix dlURL a = dlURL := by
  simp [hrefStep, h]

theorem hrefScan_foldl_of_set (suffix dlURL : String) (l : List (Option String))
    (h : dlURL.length > 0) : l.foldl (hrefStep suffix) dlURL = dlURL := by
  induction l with
  | nil => rfl
  | cons a rest ih =>
    simp only [List.foldl_cons]
    rw [hrefStep_of_set suffix dlURL a h]
    exact ih

theorem hrefScan_foldl_no_match (suffix : String) (l : List (Option String))
    (h : ∀ x, some x ∈ l → hasSuffix x suffix = false) :
    l.foldl (hrefStep suffix) "" = "" := by
  induction l with
  | nil => rfl
  | cons a rest ih =>
    have hrest : ∀ x, some x ∈ rest → hasSuffix x suffix = false :=
      fun x hx => h x (List.mem_cons_of_mem _ hx)
    simp only [List.foldl_cons]
    have hstep : hrefStep suffix "" a = "" := by
      cases a with
      | none => simp [hrefStep]
      | some x =>
        have hx := h x (List.mem_cons_self _ _)
        simp [hrefStep, hx]
    rw [hstep]
    exact ih hrest

/-- The anchor scan returns the first `href` that has the suffix. -/
theorem hrefScan_first_match (suffix href : String) (pre post : List (Option String))
    (hpos : suffix.length > 0) (hm : hasSuffix href suffix = true)
    (hpre : ∀ x, some x ∈ pre → hasSuffix x suffix = false) :
    hrefScan suffix (pre ++ some href :: post) = href := by
  have hlen : href.length > 0 := Nat.lt_of_lt_of_le hpos (hasSuffix_length_le _ _ hm)
  simp only [hrefScan, List.foldl_append, List.foldl_cons]
  rw [hrefScan_foldl_no_match suffix pre hpre]
  have hstep : hrefStep suffix "" (some href) = href := by
    simp [hrefStep, hm]
  rw [hstep]
  exact hrefScan_foldl_of_set suffix href post hlen

theorem geckoSuffix_length_pos (tag : String) : (geckoSuffix tag).length > 0 := by
  simp only [geckoSuffix, String.length_append]
  have : "-".length = 1 := by decide
  omega

theorem str_append_right_cancel (a b s : String) (h : a ++ s = b ++ s) : a = b := by
  have hd := congrArg String.data h
  simp only [String.data_append] at hd
  exact String.ext (List.append_cancel_right hd)

/-- C5. For a platform key of the Firefox table with vendor tag `tag`, once the
releases index and the expanded-assets page of its first section are fetched:
the search suffix is `-<tag>.<ext>` with `ext = zip` exactly for the Windows
keys and `tar.gz` otherwise (`windows-386` gives `-win32.zip`); the resolved
URL is `https://github.com` followed by the first `href`, in document order,
that ends in the suffix; if no `href` ends in it the function fails; and an
`href` ending in `-macos-aarch64.tar.gz.sha256` does not have the suffix
`-macos-aarch64.tar.gz`, so the scan step does not select it. -/
theorem gecko_suffix_and_first_match (env : Env) (p tag ver : String) (rest : List String)
    (index assets : Document) (w : World)
    (hp : mapGet geckoPlatformMap p = some tag)
    (hi : env.page "https://github.com/mozilla/geckodriver/releases" = .ok index)
    (hs : index.sections = ver :: rest)
    (ha : env.page
      ("https://github.com/mozilla/geckodriver/releases/expanded_assets/v" ++ ver) =
        .ok assets) :
    geckoSuffix tag =
      "-" ++ tag ++ "." ++
        (if p = "windows-amd64" ∨ p = "windows-386" then "zip" else "tar.gz") ∧
    (mapGet geckoPlatformMap "windows-386" = some "win32" ∧
      geckoSuffix "win32" = "-win32.zip") ∧
    (∀ pre href post, assets.anchors = pre ++ some href :: post →
      hasSuffix href (geckoSuffix tag) = true →
      (∀ x, some x ∈ pre → hasSuffix x (geckoSuffix tag) = false) →
      geckoResolve env p w =
        (.ok ("https://github.com" ++ href, geckoTarget tag),
          { w with trace := w.trace
              ++ [Event.getDocument "https://github.com/mozilla/geckodriver/releases"]
              ++ [Event.getDocument
                ("https://github.com/mozilla/geckodriver/releases/expanded_assets/v"
                  ++ ver)] })) ∧
    ((∀ x, some x ∈ assets.anchors → hasSuffix x (geckoSuffix tag) = false) →
      geckoResolve env p w =
        (.error ("not found download link for " ++ tag),
          { w with trace := w.trace
              ++ [Event.getDocument "https://github.com/mozilla/geckodriver/releases"]
              ++ [Event.getDocument
                ("https://github.com/mozilla/geckodriver/releases/expanded_assets/v"
                  ++ ver)] })) ∧
    (∀ x : String,
      hasSuffix (x ++ "-macos-aarch64.tar.gz.sha256") "-macos-aarch64.tar.gz" = false ∧
      hrefStep "-macos-aarch64.tar.gz" "" (some (x ++ "-macos-aarch64.tar.gz.sha256")) = "") := by
  have hsha : ∀ x : String,
      hasSuffix (x ++ "-macos-aarch64.tar.gz.sha256") "-macos-aarch64.tar.gz" = false := by
    intro x
    cases hh : hasSuffix (x ++ "-macos-aarch64.tar.gz.sha256") "-macos-aarch64.tar.gz" with
    | false => rfl
    | true =>
      exfalso
      obtain ⟨t, ht⟩ := (hasSuffix_iff _ _).1 hh
      have h1 : "-macos-aarch64.tar.gz".data.reverse = 'z' :: "g.rat.46hcraa-socam-".data := by
        decide
      have h2 : "-macos-aarch64.tar.gz.sha256".data.reverse =
          '6' :: "52ahs.zg.rat.46hcraa-socam-".data := by decide
      have h3 := congrArg (fun l => l.reverse.head?) ht
      simp only [String.data_append, List.reverse_append, h1, h2, List.cons_append,
        List.head?_cons, Option.some.injEq] at h3
      exact absurd h3 (by decide)
  refine ⟨?_, by decide, ?_, ?_, ?_⟩
  · have hm := mapGet_some_mem _ _ _ hp
    simp only [geckoPlatformMap, List.mem_cons, List.mem_singleton, Prod.mk.injEq,
      List.not_mem_nil, or_false] at hm
    rcases hm with ⟨rfl, rfl⟩ | ⟨rfl, rfl⟩ | ⟨rfl, rfl⟩ | ⟨rfl, rfl⟩ | ⟨rfl, rfl⟩ |
      ⟨rfl, rfl⟩ | ⟨rfl, rfl⟩ <;> decide
  · intro pre href post hanch hm hpre
    have hscan : hrefScan (geckoSuffix tag) assets.anchors = href := by
      rw [hanch]
      exact hrefScan_first_match _ _ _ _ (geckoSuffix_length_pos tag) hm hpre
    have hlen : href.length ≠ 0 := by
      have := Nat.lt_of_lt_of_le (geckoSuffix_length_pos tag) (hasSuffix_length_le _ _ hm)
      omega
    simp [geckoResolve, hp, getDocument, hi, hs, ha, hscan, hlen]
  · intro hno
    have hscan : hrefScan (geckoSuffix tag) assets.anchors = "" :=
      hrefScan_foldl_no_match _ _ hno
    simp [geckoResolve, hp, getDocument, hi, hs, ha, hscan]
  · intro x
    exact ⟨hsha x, by simp [hrefStep, hsha x]⟩

/-- C5, at the fixture: for `darwin-arm64` the checksum link listed first is
passed over and the first archive link is resolved, not the mirror listed
later; for `linux-arm64` no link has the suffix and the function fails. -/
theorem gecko_suffix_and_first_match_witness :
    geckoSuffix "macos-aarch64" = "-macos-aarch64.tar.gz" ∧
    geckoResolve fixEnv "darwin-arm64" fixWorld =
      (.ok ("https://github.com" ++ "/moz/dl/v0.36.0/geckodriver-v0.36.0-macos-aarch64.tar.gz",
          geckoTarget "macos-aarch64"),
        { fixWorld with trace := fixWorld.trace
            ++ [Event.getDocument "https://github.com/mozilla/geckodriver/releases"]
            ++ [Event.getDocument
              ("https://github.com/mozilla/geckodriver/releases/expanded_assets/v"
                ++ "0.36.0")] }) ∧
    geckoResolve fixEnv "linux-arm64" fixWorld =
      (.error ("not found download link for " ++ "linux-aarch64"),
        { fixWorld with trace := fixWorld.trace
            ++ [Event.getDocument "https://github.com/mozilla/geckodriver/releases"]
            ++ [Event.getDocument
              ("https://github.com/mozilla/geckodriver/releases/expanded_assets/v"
                ++ "0.36.0")] }) :=
  ⟨(gecko_suffix_and_first_match fixEnv "darwin-arm64" "macos-aarch64" "0.36.0" ["0.35.0"]
      fixGeckoIndex fixGeckoAssets fixWorld (by decide) rfl rfl rfl).1,
   (gecko_suffix_and_first_match fixEnv "darwin-arm64" "macos-aarch64" "0.36.0" ["0.35.0"]
      fixGeckoIndex fixGeckoAssets fixWorld (by decide) rfl rfl rfl).2.2.1
      [none, some "/moz/dl/v0.36.0/geckodriver-v0.36.0-macos-aarch64.tar.gz.sha256"]
      "/moz/dl/v0.36.0/geckodriver-v0.36.0-macos-aarch64.tar.gz"
      [some "/moz/dl/v0.36.0/geckodriver-v0.36.0-win32.zip",
       some "/moz/mirror/geckodriver-v0.36.0-macos-aarch64.tar.gz"]
      rfl (by decide)
      (by
        intro x hx
        simp only [List.mem_cons, List.mem_singleton, Option.some.injEq, List.not_mem_nil,
          or_false, false_or, reduceCtorEq] at hx
        subst hx
        decide),
   (gecko_suffix_and_first_match fixEnv "linux-arm64" "linux-aarch64" "0.36.0" ["0.35.0"]
      fixGeckoIndex fixGeckoAssets fixWorld (by decide) rfl rfl rfl).2.2.2.1
      (by
        intro x hx
        simp only [fixGeckoAssets, List.mem_cons, List.mem_singleton, Option.some.injEq,
          List.not_mem_nil, or_false, false_or, reduceCtorEq] at hx
        rcases hx with rfl | rfl | rfl | rfl <;> decide)⟩

/-! ## Theorems: Edge card position -/

/-- C6. The channel selects card position stable 0, beta 1, dev 2, canary 3.
For a platform key of the Edge table, once the page is fetched: when the page
has no card at the channel's position the function fails with the
`not found parent element` error, so for `canary` whenever fewer than four
cards are present; when there is a card at that position (index 3 for
`canary`), whatever the number of cards, the outcome is decided by that card
alone (`not found download link` when it has no link, `not found href
attribute` when no link has the suffix, else the link found); and the parent
error differs from both link errors. -/
theorem edge_card_position (env : Env) (channel p tag : String) (doc : Document) (w : World)
    (hp : mapGet edgePlatformMap p = some tag)
    (hd : env.page
      "https://developer.microsoft.com/en-us/microsoft-edge/tools/webdriver/?form=MA13LH" =
        .ok doc) :
    (edgeChildIdx "stable" = 0 ∧ edgeChildIdx "beta" = 1 ∧ edgeChildIdx "dev" = 2 ∧
      edgeChildIdx "canary" = 3) ∧
    (doc.cards.length < 4 →
      edgeResolve env "canary" p w =
        (.error ("not found parent element: " ++ "canary" ++ " " ++ p),
          { w with trace := w.trace ++ [Event.getDocument
            "https://developer.microsoft.com/en-us/microsoft-edge/tools/webdriver/?form=MA13LH"] })) ∧
    (doc.cards.length ≤ edgeChildIdx channel →
      edgeResolve env channel p w =
        (.error ("not found parent element: " ++ channel ++ " " ++ p),
          { w with trace := w.trace ++ [Event.getDocument
            "https://developer.microsoft.com/en-us/microsoft-edge/tools/webdriver/?form=MA13LH"] })) ∧
    (∀ card, doc.cards[edgeChildIdx channel]? = some card →
      edgeResolve env channel p w =
        (if card.links.length = 0 then
            .error ("not found download link: " ++ channel ++ " " ++ p)
          else if (hrefScan ("edgedriver_" ++ tag ++ ".zip") card.links).length = 0 then
            .error ("not found href attribute: " ++ channel ++ " " ++ p)
          else .ok (hrefScan ("edgedriver_" ++ tag ++ ".zip") card.links, edgeTarget p),
          { w with trace := w.trace ++ [Event.getDocument
            "https://developer.microsoft.com/en-us/microsoft-edge/tools/webdriver/?form=MA13LH"] })) ∧
    ("not found parent element: " ++ channel ++ " " ++ p ≠
        "not found download link: " ++ channel ++ " " ++ p ∧
      "not found parent element: " ++ channel ++ " " ++ p ≠
        "not found href attribute: " ++ channel ++ " " ++ p) := by
  have hidx : edgeChildIdx "canary" = 3 := by decide
  refine ⟨by decide, ?_, ?_, ?_, ?_, ?_⟩
  · intro hlen
    have hnone : doc.cards[3]? = none := by
      rw [List.getElem?_eq_none_iff]
      omega
    simp [edgeResolve, hp, getDocument, hd, hidx, hnone]
  · intro hlen
    have hnone : doc.cards[edgeChildIdx channel]? = none := by
      rw [List.getElem?_eq_none_iff]
      exact hlen
    simp [edgeResolve, hp, getDocument, hd, hnone]
  · intro card hcard
    by_cases h0 : card.links.length = 0
    · simp [edgeResolve, hp, getDocument, hd, hcard, h0]
    · by_cases h1 : (hrefScan ("edgedriver_" ++ tag ++ ".zip") card.links).length = 0
      · simp [edgeResolve, hp, getDocument, hd, hcard, h0, h1]
      · simp [edgeResolve, hp, getDocument, hd, hcard, h0, h1]
  · intro h
    have h1 := str_append_right_cancel _ _ _ h
    have h2 := str_append_right_cancel _ _ _ h1
    have h3 := str_append_right_cancel _ _ _ h2
    exact absurd h3 (by decide)
  · intro h
    have h1 := str_append_right_cancel _ _ _ h
    have h2 := str_append_right_cancel _ _ _ h1
    have h3 := str_append_right_cancel _ _ _ h2
    exact absurd h3 (by decide)

/-- C6, at the fixtures: on the three-card page `canary` fails with the parent
error for `windows-amd64`; on the four-card page it reads the fourth card and
takes the first of its two `win64` links. -/
theorem edge_card_position_witness :
    fixEdgeShortDoc.cards.length < 4 ∧
    edgeResolve fixEnvShortEdge "canary" "windows-amd64" fixWorld =
      (.error ("not found parent element: " ++ "canary" ++ " " ++ "windows-amd64"),
        { fixWorld with trace := fixWorld.trace ++ [Event.getDocument
          "https://developer.microsoft.com/en-us/microsoft-edge/tools/webdriver/?form=MA13LH"] }) ∧
    edgeResolve fixEnvShortEdge "canary" "windows-amd64" fixWorld =
      (.error ("not found parent element: " ++ "canary" ++ " " ++ "windows-amd64"),
        { fixWorld with trace := fixWorld.trace ++ [Event.getDocument
          "https://developer.microsoft.com/en-us/microsoft-edge/tools/webdriver/?form=MA13LH"] }) ∧
    fixEdgeDoc.cards[edgeChildIdx "canary"]? = some fixCanaryCard ∧
    edgeResolve fixEnv "canary" "windows-amd64" fixWorld =
      (.ok ("https://ms.test/141/edgedriver_win64.zip", "msedgedriver.exe"),
        { fixWorld with trace := fixWorld.trace ++ [Event.getDocument
          "https://developer.microsoft.com/en-us/microsoft-edge/tools/webdriver/?form=MA13LH"] }) :=
  ⟨by decide,
   (edge_card_position fixEnvShortEdge "canary" "windows-amd64" "win64" fixEdgeShortDoc
      fixWorld (by decide) rfl).2.1 (by decide),
   (edge_card_position fixEnvShortEdge "canary" "windows-amd64" "win64" fixEdgeShortDoc
      fixWorld (by decide) rfl).2.2.1 (by decide),
   by decide,
   (edge_card_position fixEnv "canary" "windows-amd64" "win64" fixEdgeDoc fixWorld
      (by decide) rfl).2.2.2.1 fixCanaryCard (by decide)⟩

/-! ## Theorems: archive kind by URL extension -/

theorem extAux_suffix (r acc : List Char) : extAux r acc <:+ r.reverse ++ acc := by
  induction r generalizing acc with
  | nil => exact List.nil_suffix
  | cons c rest ih =>
    unfold extAux
    by_cases h1 : c = '/'
    · simp only [h1, if_true]
      exact List.nil_suffix
    · by_cases h2 : c = '.'
      · simp only [h1, h2, if_true, if_false, List.reverse_cons, List.append_assoc,
          List.singleton_append]
        exact List.suffix_append _ _
      · simp only [h1, h2, if_false, List.reverse_cons, List.append_assoc,
          List.singleton_append]
        exact ih (c :: acc)

theorem pathExt_suffix (p : String) : hasSuffix p (pathExt p) = true := by
  rw [hasSuffix_iff]
  have h := extAux_suffix p.data.reverse []
  simpa [pathExt] using h

theorem pathExt_eq_zip_iff (p : String) : pathExt p = ".zip" ↔ hasSuffix p ".zip" = true := by
  constructor
  · intro h
    rw [← h]
    exact pathExt_suffix p
  · intro h
    obtain ⟨t, ht⟩ := (hasSuffix_iff _ _).1 h
    have hd : ".zip".data = ['.', 'z', 'i', 'p'] := by decide
    apply String.ext
    rw [hd]
    simp only [pathExt, ← ht, hd, List.reverse_append, List.reverse_cons, List.reverse_nil,
      List.nil_append, List.cons_append, List.singleton_append]
    simp [extAux]

theorem pathExt_eq_gz_iff (p : String) : pathExt p = ".gz" ↔ hasSuffix p ".gz" = true := by
  constructor
  · intro h
    rw [← h]
    exact pathExt_suffix p
  · intro h
    obtain ⟨t, ht⟩ := (hasSuffix_iff _ _).1 h
    have hd : ".gz".data = ['.', 'g', 'z'] := by decide
    apply String.ext
    rw [hd]
    simp only [pathExt, ← ht, hd, List.reverse_append, List.reverse_cons, List.reverse_nil,
      List.nil_append, List.cons_append, List.singleton_append]
    simp [extAux]

theorem pathExt_eq_tgz_iff (p : String) : pathExt p = ".tgz" ↔ hasSuffix p ".tgz" = true := by
  constructor
  · intro h
    rw [← h]
    exact pathExt_suffix p
  · intro h
    obtain ⟨t, ht⟩ := (hasSuffix_iff _ _).1 h
    have hd : ".tgz".data = ['.', 't', 'g', 'z'] := by decide
    apply String.ext
    rw [hd]
    simp only [pathExt, ← ht, hd, List.reverse_append, List.reverse_cons, List.reverse_nil,
      List.nil_append, List.cons_append, List.singleton_append]
    simp [extAux]

/-- C2, as stated, fails: a URL ending in plain `.gz` (not `.tar.gz`, `.tgz` or
`.zip`) is not rejected; `fetchAndSaveFile` fetches it and extracts from it as
a gzip-tar archive. -/
theorem fetchAndSaveFile_accepts_plain_gz :
    ¬ (∀ (env : Env) (url target savePath drvName : String) (w : World),
        hasSuffix url ".zip" = false → hasSuffix url ".tar.gz" = false →
        hasSuffix url ".tgz" = false →
        fetchAndSaveFile env url target savePath drvName w =
          (.error ("extension " ++ pathExt url ++ " is not a valid file"), w)) ∧
    fetchAndSaveFile fixEnv "https://dl.test/driver.gz" "geckodriver" "/work" "" fixWorld =
      (.ok (),
        { files := [("/work/chromedriver", ⟨[1, 2, 3], 493, 1500⟩),
            ("/work/geckodriver", ⟨[127, 69], 493, 1801⟩)],
          trace := [Event.fetchBody "https://dl.test/driver.gz",
            Event.openFile "/work/geckodriver", Event.chtimes "/work/geckodriver"] }) := by
  refine ⟨?_, by decide⟩
  intro h
  have h1 := h fixEnv "https://dl.test/driver.gz" "geckodriver" "/work" "" fixWorld
    (by decide) (by decide) (by decide)
  have h2 := congrArg (fun r => r.2.trace) h1
  revert h2
  decide

/-- C2, amended. `fetchAndSaveFile` accepts a URL exactly when it ends in
`.zip`, `.gz` or `.tgz`: a URL ending in `.gz` (so `.tar.gz`, and plain `.gz`
too) or `.tgz` goes to `fetchTGZ`, one ending in `.zip` to `fetchZIP`, and for
every other URL it returns the `extension ... is not a valid file` error with
the world as it was, so without a fetch or an extraction. -/
theorem fetchAndSaveFile_extension_gate (env : Env) (url target savePath drvName : String)
    (w : World) :
    ((hasSuffix url ".gz" = true ∨ hasSuffix url ".tgz" = true) →
      fetchAndSaveFile env url target savePath drvName w =
        stampFile env (saveFilenameOf env target savePath drvName)
          (fetchTGZ env url target (saveFilenameOf env target savePath drvName) w)) ∧
    (hasSuffix url ".zip" = true →
      fetchAndSaveFile env url target savePath drvName w =
        stampFile env (saveFilenameOf env target savePath drvName)
          (fetchZIP env url target (saveFilenameOf env target savePath drvName) w)) ∧
    (hasSuffix url ".zip" = false → hasSuffix url ".gz" = false →
      hasSuffix url ".tgz" = false →
      fetchAndSaveFile env url target savePath drvName w =
        (.error ("extension " ++ pathExt url ++ " is not a valid file"), w)) := by
  refine ⟨?_, ?_, ?_⟩
  · intro h
    have h1 : pathExt url = ".gz" ∨ pathExt url = ".tgz" := by
      rcases h with h | h
      · exact Or.inl ((pathExt_eq_gz_iff url).2 h)
      · exact Or.inr ((pathExt_eq_tgz_iff url).2 h)
    simp only [fetchAndSaveFile, h1, if_true]
  · intro h
    have h1 : pathExt url = ".zip" := (pathExt_eq_zip_iff url).2 h
    have h2 : ¬ (pathExt url = ".gz" ∨ pathExt url = ".tgz") := by
      rw [h1]
      decide
    simp only [fetchAndSaveFile, h2, if_false]
    simp only [h1, if_true]
  · intro hz hg ht
    have h1 : ¬ pathExt url = ".zip" := by
      intro hh
      rw [(pathExt_eq_zip_iff url).1 hh] at hz
      exact absurd hz (by decide)
    have h2 : ¬ pathExt url = ".gz" := by
      intro hh
      rw [(pathExt_eq_gz_iff url).1 hh] at hg
      exact absurd hg (by decide)
    have h3 : ¬ pathExt url = ".tgz" := by
      intro hh
      rw [(pathExt_eq_tgz_iff url).1 hh] at ht
      exact absurd ht (by decide)
    simp [fetchAndSaveFile, h1, h2, h3, stampFile]

/-- C2, at the fixture: a `.tar.bz2` URL is rejected with nothing fetched, a
plain `.gz` URL is handed to `fetchTGZ` and a `.zip` URL to `fetchZIP`. -/
theorem fetchAndSaveFile_extension_gate_witness :
    fetchAndSaveFile fixEnv "https://dl.test/driver.tar.bz2" "geckodriver" "/work" "" fixWorld =
      (.error ("extension " ++ pathExt "https://dl.test/driver.tar.bz2" ++
        " is not a valid file"), fixWorld) ∧
    fetchAndSaveFile fixEnv "https://dl.test/driver.gz" "geckodriver" "/work" "" fixWorld =
      stampFile fixEnv (saveFilenameOf fixEnv "geckodriver" "/work" "")
        (fetchTGZ fixEnv "https://dl.test/driver.gz" "geckodriver"
          (saveFilenameOf fixEnv "geckodriver" "/work" "") fixWorld) ∧
    fetchAndSaveFile fixEnv "https://dl.test/139/chromedriver-linux64.zip" "chromedriver"
        "/work" "" fixWorld =
      stampFile fixEnv (saveFilenameOf fixEnv "chromedriver" "/work" "")
        (fetchZIP fixEnv "https://dl.test/139/chromedriver-linux64.zip" "chromedriver"
          (saveFilenameOf fixEnv "chromedriver" "/work" "") fixWorld) :=
  ⟨(fetchAndSaveFile_extension_gate fixEnv "https://dl.test/driver.tar.bz2" "geckodriver"
      "/work" "" fixWorld).2.2 (by decide) (by decide) (by decide),
   (fetchAndSaveFile_extension_gate fixEnv "https://dl.test/driver.gz" "geckodriver"
      "/work" "" fixWorld).1 (Or.inl (by decide)),
   (fetchAndSaveFile_extension_gate fixEnv "https://dl.test/139/chromedriver-linux64.zip"
      "chromedriver" "/work" "" fixWorld).2.1 (by decide)⟩

/-! ## Theorems: writing the destination file -/

theorem zipFind_first (target : String) (pre post : List ZipFile) (f : ZipFile)
    (hf : filepathBase f.name = target)
    (hpre : ∀ g ∈ pre, filepathBase g.name ≠ target) :
    zipFind target (pre ++ f :: post) = some f := by
  induction pre with
  | nil => simp [zipFind, hf]
  | cons g rest ih =>
    have hg := hpre g (List.mem_cons_self _ _)
    have hrest : ∀ x ∈ rest, filepathBase x.name ≠ target :=
      fun x hx => hpre x (List.mem_cons_of_mem _ hx)
    simp [zipFind, hg, ih hrest]

theorem zipFind_none (target : String) (files : List ZipFile)
    (h : ∀ g ∈ files, filepathBase g.name ≠ target) : zipFind target files = none := by
  induction files with
  | nil => rfl
  | cons g rest ih =>
    have hg := h g (List.mem_cons_self _ _)
    have hrest : ∀ x ∈ rest, filepathBase x.name ≠ target :=
      fun x hx => h x (List.mem_cons_of_mem _ hx)
    simp [zipFind, hg, ih hrest]

theorem tarFind_first (target : String) (tail : Option String) (pre post : List TarEntry)
    (f : TarEntry) (hf : filepathBase f.name = target)
    (hpre : ∀ g ∈ pre, filepathBase g.name ≠ target) :
    tarFind target tail (pre ++ f :: post) = .ok (some f) := by
  induction pre with
  | nil => simp [tarFind, hf]
  | cons g rest ih =>
    have hg := hpre g (List.mem_cons_self _ _)
    have hrest : ∀ x ∈ rest, filepathBase x.name ≠ target :=
      fun x hx => hpre x (List.mem_cons_of_mem _ hx)
    simp [tarFind, hg, ih hrest]

theorem tarFind_none (target : String) (tail : Option String) (entries : List TarEntry)
    (h : ∀ g ∈ entries, filepathBase g.name ≠ target) :
    tarFind target tail entries =
      (match tail with
       | none => .ok none
       | some e => .error e) := by
  induction entries with
  | nil => rfl
  | cons g rest ih =>
    have hg := h g (List.mem_cons_self _ _)
    have hrest : ∀ x ∈ rest, filepathBase x.name ≠ target :=
      fun x hx => h x (List.mem_cons_of_mem _ hx)
    simp [tarFind, hg, ih hrest]

/-- C7. Once the archive body is fetched and decoded into its entries, for
every entry sequence and target: `fetchZIP` and `fetchTGZ` save the first
entry, in archive order, whose base name equals the target; when no entry's
base name equals the target, `fetchZIP` returns `file not found: <target>` and
`fetchTGZ`, at the end of the stream, `file <target> is not found`, and in both
the world is the one right after the body was fetched: no file was opened or
written (for `fetchTGZ` also when the stream ends in an error). -/
theorem archive_first_base_name_match (env : Env) (url target saveFilename : String)
    (w : World) (buf : Body) (hb : env.body url = .ok buf) :
    (∀ files, buf.zip = .ok files →
      (∀ pre f post, files = pre ++ f :: post → filepathBase f.name = target →
        (∀ g ∈ pre, filepathBase g.name ≠ target) →
        fetchZIP env url target saveFilename w =
          saveZipMember env f saveFilename
            { w with trace := w.trace ++ [Event.fetchBody url] }) ∧
      ((∀ g ∈ files, filepathBase g.name ≠ target) →
        fetchZIP env url target saveFilename w =
          (.error ("file not found: " ++ target),
            { w with trace := w.trace ++ [Event.fetchBody url] }))) ∧
    (∀ entries tail, buf.tgz = .ok ⟨entries, tail⟩ →
      (∀ pre f post, entries = pre ++ f :: post → filepathBase f.name = target →
        (∀ g ∈ pre, filepathBase g.name ≠ target) →
        fetchTGZ env url target saveFilename w =
          saveTarMember env f saveFilename
            { w with trace := w.trace ++ [Event.fetchBody url] }) ∧
      ((∀ g ∈ entries, filepathBase g.name ≠ target) →
        (fetchTGZ env url target saveFilename w).2 =
            { w with trace := w.trace ++ [Event.fetchBody url] } ∧
        (tail = none →
          (fetchTGZ env url target saveFilename w).1 =
            .error ("file " ++ target ++ " is not found")))) := by
  refine ⟨?_, ?_⟩
  · intro files hz
    refine ⟨?_, ?_⟩
    · intro pre f post hfiles hf hpre
      have hfind : zipFind target files = some f := by
        rw [hfiles]
        exact zipFind_first target pre post f hf hpre
      simp [fetchZIP, fetchBody, hb, hz, hfind]
    · intro hno
      simp [fetchZIP, fetchBody, hb, hz, zipFind_none target files hno]
  · intro entries tail ht
    refine ⟨?_, ?_⟩
    · intro pre f post hentries hf hpre
      have hfind : tarFind target tail entries = .ok (some f) := by
        rw [hentries]
        exact tarFind_first target tail pre post f hf hpre
      simp [fetchTGZ, fetchBody, hb, ht, hfind]
    · intro hno
      have hfind := tarFind_none target tail entries hno
      cases tail with
      | none => simp [fetchTGZ, fetchBody, hb, ht, hfind]
      | some e => simp [fetchTGZ, fetchBody, hb, ht, hfind]

/-- C7, at the fixtures: the zip has two entries with base name `chromedriver`
and the one listed first is saved; the same zip has no `msedgedriver.exe`, so
extraction fails and the file system is the one before the call; the tar
stream has two entries with base name `geckodriver` and the one listed first
is saved, and it has no `geckodriver.exe`. -/
theorem archive_first_base_name_match_witness :
    fetchZIP fixEnv "https://dl.test/139/chromedriver-linux64.zip" "chromedriver"
        "/work/chromedriver" fixWorld =
      (.ok 1701,
        { files := [("/work/chromedriver", ⟨[127, 69, 76, 70], 493, 2000⟩)],
          trace := [Event.fetchBody "https://dl.test/139/chromedriver-linux64.zip",
            Event.openFile "/work/chromedriver"] }) ∧
    fetchZIP fixEnv "https://dl.test/139/chromedriver-linux64.zip" "msedgedriver.exe"
        "/work/msedgedriver.exe" fixWorld =
      (.error ("file not found: " ++ "msedgedriver.exe"),
        { fixWorld with trace := fixWorld.trace ++
            [Event.fetchBody "https://dl.test/139/chromedriver-linux64.zip"] }) ∧
    fetchTGZ fixEnv "https://dl.test/geckodriver.tar.gz" "geckodriver"
        "/work/geckodriver" fixWorld =
      (.ok 1801,
        { files := [("/work/chromedriver", ⟨[1, 2, 3], 493, 1500⟩),
            ("/work/geckodriver", ⟨[127, 69], 493, 2000⟩)],
          trace := [Event.fetchBody "https://dl.test/geckodriver.tar.gz",
            Event.openFile "/work/geckodriver"] }) ∧
    ((fetchTGZ fixEnv "https://dl.test/geckodriver.tar.gz" "geckodriver.exe"
        "/work/geckodriver.exe" fixWorld).2 =
        { fixWorld with trace := fixWorld.trace ++
            [Event.fetchBody "https://dl.test/geckodriver.tar.gz"] } ∧
      (fetchTGZ fixEnv "https://dl.test/geckodriver.tar.gz" "geckodriver.exe"
        "/work/geckodriver.exe" fixWorld).1 =
        .error ("file " ++ "geckodriver.exe" ++ " is not found")) :=
  ⟨((archive_first_base_name_match fixEnv "https://dl.test/139/chromedriver-linux64.zip"
        "chromedriver" "/work/chromedriver" fixWorld
        ⟨.ok fixZip, .error "gzip: invalid header"⟩ rfl).1 fixZip rfl).1
      [⟨"chromedriver-linux64/LICENSE.chromedriver", 420, 1700, .ok ⟨[76], none⟩⟩]
      ⟨"chromedriver-linux64/chromedriver", 493, 1701, .ok ⟨[127, 69, 76, 70], none⟩⟩
      [⟨"extra/chromedriver", 493, 1702, .ok ⟨[0], none⟩⟩]
      rfl (by decide)
      (by
        intro g hg
        simp only [List.mem_singleton] at hg
        subst hg
        decide),
   ((archive_first_base_name_match fixEnv "https://dl.test/139/chromedriver-linux64.zip"
        "msedgedriver.exe" "/work/msedgedriver.exe" fixWorld
        ⟨.ok fixZip, .error "gzip: invalid header"⟩ rfl).1 fixZip rfl).2
      (by
        intro g hg
        simp only [fixZip, List.mem_cons, List.mem_singleton, List.not_mem_nil,
          or_false] at hg
        rcases hg with rfl | rfl | rfl <;> decide),
   ((archive_first_base_name_match fixEnv "https://dl.test/geckodriver.tar.gz"
        "geckodriver" "/work/geckodriver" fixWorld
        ⟨.error "zip: not a valid zip file", .ok fixTar⟩ rfl).2 fixTar.entries none rfl).1
      [⟨"README", 420, 1800, ⟨[82], none⟩⟩]
      ⟨"./geckodriver", 493, 1801, ⟨[127, 69], none⟩⟩
      [⟨"old/geckodriver", 493, 1802, ⟨[1], none⟩⟩]
      rfl (by decide)
      (by
        intro g hg
        simp only [List.mem_singleton] at hg
        subst hg
        decide),
   ⟨(((archive_first_base_name_match fixEnv "https://dl.test/geckodriver.tar.gz"
        "geckodriver.exe" "/work/geckodriver.exe" fixWorld
        ⟨.error "zip: not a valid zip file", .ok fixTar⟩ rfl).2 fixTar.entries none rfl).2
      (by
        intro g hg
        simp only [fixTar, List.mem_cons, List.mem_singleton, List.not_mem_nil,
          or_false] at hg
        rcases hg with rfl | rfl | rfl <;> decide)).1,
    (((archive_first_base_name_match fixEnv "https://dl.test/geckodriver.tar.gz"
        "geckodriver.exe" "/work/geckodriver.exe" fixWorld
        ⟨.error "zip: not a valid zip file", .ok fixTar⟩ rfl).2 fixTar.entries none rfl).2
      (by
        intro g hg
        simp only [fixTar, List.mem_cons, List.mem_singleton, List.not_mem_nil,
          or_false] at hg
        rcases hg with rfl | rfl | rfl <;> decide)).2 rfl⟩⟩

end Dlwebdrv
